import Mathlib

/-!
Shallow embedding of the control logic of `gpt_2_length_patch71.py`
(repository `gpt-2-dnd`): the text-generation sampling loop (`generate`,
lines 411-564) and the finetuning training loop (`finetune`, lines 125-365).

The external collaborators (the TensorFlow model graph, the BPE encoder,
the checkpoint store) are opaque services in the source; they are modelled
here as function parameters collected in a `Services` structure.  All Python
strings are modelled as `List Char`; token id lists as `List Nat`;
Python integers as `Int` / `Nat`; the Python floats `split_context` and the
loss statistics as `ℚ` (the only float operations the control logic performs
at the inputs our theorems use - multiplication by 0.5/0.99, addition,
division by 1 - are exact in IEEE double, so the rational model agrees
with the float semantics there).
-/

namespace GPT2

/-- Character-list strings, mirroring Python `str` values. -/
abbrev Str := List Char

/-- Python truthiness of an optional string argument (`None` and `''` are
falsy, any non-empty string is truthy). -/
def pyTruthyStr : Option Str → Bool
  | none => false
  | some s => !s.isEmpty

/-- Python truthiness of an optional list argument (`None` and `[]` falsy). -/
def pyTruthyList {α : Type} : Option (List α) → Bool
  | none => false
  | some l => !l.isEmpty

/-- Python truthiness of the `length` argument (`None` and `0` are falsy). -/
def pyTruthyLen : Option Int → Bool
  | none => false
  | some l => decide (l ≠ 0)

/-- The rational value 1/2, the exact value of the float default
`split_context=0.5`, given in reduced `num/den` form. -/
def oneHalf : ℚ := ⟨1, 2, by decide, by decide⟩

/-- Python `int(n * (num/den))`: the float product truncated toward zero,
evaluated exactly over the rational `num/den`.  Used for the
`int(len(out[i])*(1-split_context))` and `int(len(out[i])*(split_context))`
slice indices of source lines 517 and 519; at the values our theorems use
(`split_context = 0.5`, small `n`) the float computation is exact, so this
agrees with the Python float semantics. -/
def ratMulTrunc (n : Nat) (num : Int) (den : Nat) : Int :=
  if 0 ≤ num then ((n * num.toNat) / den : Nat)
  else -(((n * (-num).toNat) / den : Nat))

/-- Python slice `l[k:]` for a possibly negative start index `k`. -/
def pySliceFrom {α : Type} (l : List α) (k : Int) : List α :=
  if 0 ≤ k then l.drop k.toNat
  else l.drop (((l.length : Int) + k).toNat)

/-- Index of the first occurrence of `t` as a contiguous substring of `s`
(`None` when `t` does not occur).  This is the semantics of
`re.search('(.*?)(?:T)', s, re.S)` for the escaped literal `T`: the lazy
group captures exactly the part of `s` before the first occurrence. -/
def firstOccur (t : Str) : Str → Option Nat
  | [] => if t.isEmpty then some 0 else none
  | c :: cs =>
      if t.isPrefixOf (c :: cs) then some 0
      else (firstOccur t cs).map (· + 1)

/-- Whether `t` occurs as a contiguous substring of `s`. -/
def containsSubstrB (t s : Str) : Bool :=
  (firstOccur t s).isSome

/-- Semantics of `re.search('(.*?)(?:T)', s, re.S).group(1)` (source line
538-542) for the escaped literal `T`: the part of `s` before the first
occurrence of `T`, or `None` when `T` does not occur. -/
def reSearchSimple (t s : Str) : Option Str :=
  (firstOccur t s).map (fun k => s.take k)

/-- Semantics of `re.search('(?:P)(.*?)(?:T)', s, re.S).group(1)` (source
lines 533-536, the `include_prefix=False` pattern) for escaped literals:
scanning start positions left to right, the match begins at the first
position where `P` occurs followed (lazily) by an occurrence of `T`; the
group is the text strictly between that `P` and the first following `T`. -/
def reSearchAfterP (p t : Str) : Str → Option Str
  | [] =>
      if p.isPrefixOf ([] : Str) then
        (firstOccur t []).map (fun k => (([] : Str)).take k)
      else none
  | c :: cs =>
      if p.isPrefixOf (c :: cs) then
        match firstOccur t ((c :: cs).drop p.length) with
        | some j => some (((c :: cs).drop p.length).take j)
        | none => reSearchAfterP p t cs
      else reSearchAfterP p t cs

/-- Python `str.lstrip('\n')`: drop all leading newline characters. -/
def lstripNewline (s : Str) : Str :=
  s.dropWhile (fun c => c = '\n')

/-- The opaque external services `generate` calls: the BPE encoder
(`enc.encode` / `enc.decode` / `enc.encoder['<|endoftext|>']`) and the
model sampling op (`sample.sample_sequence(...)` as run in the session;
its result is a batch of full token rows, one per slot).  The sampling
parameters `temperature`, `top_k`, `top_p` and the hparams are passed
through to this opaque service unchanged and do not influence the control
logic, so they are not modelled; the requested sample length and the
context batch, which the loop computes, are its arguments. -/
structure Services where
  encode : Str → List Nat
  decode : List Nat → Str
  endoftext : Nat
  sampleSeq : Int → List (List Nat) → List (List Nat)

/-- The arguments of `generate` (source lines 411-431) that the sampling
loop's control logic reads.  Python names `prefix`, `batch_prefix` and
`include_prefix` are rendered `pfx`, `batch_pfx`, `include_pfx`.
`destination_path` keeps only the path string (its content is irrelevant
to control flow beyond truthiness; the writes it receives are recorded in
the run result).  `batch_size` is `Option Nat` because the source guards
`if batch_size is None: batch_size = 1`. -/
structure GenArgs where
  return_as_list : Bool := false
  truncate : Option Str := none
  destination_path : Option Str := none
  sample_delim : Str := List.replicate 20 '=' ++ ['\n']
  pfx : Option Str := none
  nsamples : Nat := 1
  batch_size : Option Nat := some 1
  length : Option Int := some 1023
  include_pfx : Bool := true
  split_context : ℚ := oneHalf
  batch_pfx : Option (List Str) := none

/-- The distinct assertion failures of `generate`'s argument checks
(source lines 438, 442, 443, 450). -/
inductive CheckFail where
  | nsamplesDiv
  | bothPrefixes
  | batchPrefixLen
  | lengthNoTrunc
  deriving DecidableEq, Repr

/-- Exceptions `generate` can raise before sampling: an `AssertionError`
from one of its asserts, or the `ZeroDivisionError` Python raises in
`nsamples % batch_size` when `batch_size == 0`. -/
inductive PyError where
  | assertFail (c : CheckFail)
  | zeroDivision
  deriving DecidableEq, Repr

/-- The argument state after `generate`'s checks and normalizations
(lines 436-451): the effective batch size, the possibly cleared sample
delimiter, and the prefix arguments with `''` / `[]` normalized to `None`. -/
structure NormArgs where
  base : GenArgs
  bs : Nat
  delim : Str

/-- Source lines 436-451: default `batch_size`, assert divisibility, clear
`sample_delim` when `nsamples == 1`, assert not both prefixes, assert the
`batch_prefix` length, normalize `'' -> None` and `[] -> None`, and assert
a truncation term when `length` is falsy.  Returns the first raised
exception, or the normalized arguments. -/
def generateChecks (a : GenArgs) : Except PyError NormArgs :=
  let bs := a.batch_size.getD 1
  if bs = 0 then .error .zeroDivision
  else if ¬ (a.nsamples % bs = 0) then .error (.assertFail .nsamplesDiv)
  else
    let delim := if a.nsamples = 1 then [] else a.sample_delim
    if pyTruthyStr a.pfx = true ∧ pyTruthyList a.batch_pfx = true then
      .error (.assertFail .bothPrefixes)
    else if pyTruthyList a.batch_pfx = true ∧
        ¬ ((a.batch_pfx.getD []).length = bs) then
      .error (.assertFail .batchPrefixLen)
    else
      let pfx := if a.pfx = some [] then none else a.pfx
      let bpfx := if a.batch_pfx = some [] then none else a.batch_pfx
      if pyTruthyLen a.length = false ∧ a.truncate = none then
        .error (.assertFail .lengthNoTrunc)
      else
        .ok ⟨{ a with pfx := pfx, batch_pfx := bpfx }, bs, delim⟩

/-- Initial per-slot contexts (source lines 463-477): the encoded single
prefix replicated, or the encoded `batch_prefix` entries left-padded with
token id 0 to the maximum length, or one `<|endoftext|>` token per slot. -/
def initContext (S : Services) (bs : Nat) (pfx : Option Str)
    (bpfx : Option (List Str)) : List (List Nat) :=
  if pyTruthyStr pfx then
    List.replicate bs (S.encode (pfx.getD []))
  else if pyTruthyList bpfx then
    let cts := (bpfx.getD []).map S.encode
    let ml := cts.foldl (fun m p => max m p.length) 0
    cts.map (fun p => List.replicate (ml - p.length) 0 ++ p)
  else
    List.replicate bs [S.endoftext]

/-- State of one batch of the sampling loop (source lines 488-491).
The source initializes `gen_text = [[]] * batch_size`, which makes every
batch slot reference the SAME Python list object; mutating
`gen_text[i] += [text]` therefore extends that one shared list.  This is
modelled by a heap: `genStore` holds the list objects (a single cell after
initialization) and `genPtr i` is the object slot `i` references.  Slot
assignments to `context_tokens[i]` rebind (they do not mutate), so
`context_tokens` is a plain list.  `snaps` is proof instrumentation only:
after each per-slot step it records the `truncated` flags and the total
token count of each slot's visible `gen_text[i]`; no control decision
reads it. -/
structure BatchState where
  context_tokens : List (List Nat)
  genStore : List (List (List Nat))
  genPtr : List Nat
  truncated : List Bool
  snaps : List (List Bool × List Nat)

/-- The list object slot `i`'s `gen_text[i]` currently references. -/
def readGen (s : BatchState) (i : Nat) : List (List Nat) :=
  s.genStore.getD (s.genPtr.getD i 0) []

/-- Python `all(gen_text)` (line 516): every slot's referenced list is
non-empty (the empty list is falsy). -/
def allGenNonempty (s : BatchState) : Bool :=
  s.genPtr.all (fun p => !(s.genStore.getD p []).isEmpty)

/-- `gen_text[i] += [text]` (line 545): extend, in place, the one list
object slot `i` references. -/
def appendChunk (s : BatchState) (i : Nat) (text : List Nat) : BatchState :=
  let p := s.genPtr.getD i 0
  { s with genStore := s.genStore.set p ((s.genStore.getD p []) ++ [text]) }

/-- Record an instrumentation snapshot (truncated flags and the visible
`gen_text` token count of each slot). -/
def snapState (s : BatchState) : BatchState :=
  { s with
    snaps := s.snaps ++
      [(s.truncated,
        s.genPtr.map (fun p => ((s.genStore.getD p []).map List.length).sum))] }

/-- Source lines 530-542: decode the candidate text, run the truncation
regex (the prefix-exclusion pattern when a truthy single prefix is set and
`include_prefix` is false, the plain pattern otherwise), and if it matched
re-encode the captured group.  Returns (whether `trunc_text` is truthy,
the resulting token list). -/
def truncSearch (S : Services) (a : GenArgs) (text : List Nat) :
    Bool × List Nat :=
  let to_trunc := S.decode text
  let res := if pyTruthyStr a.pfx && !a.include_pfx then
               reSearchAfterP (a.pfx.getD []) (a.truncate.getD []) to_trunc
             else reSearchSimple (a.truncate.getD []) to_trunc
  match res with
  | some g1 => (true, S.encode g1)
  | none => (false, text)

/-- Source lines 544-547: append the chunk to the slot's (shared) list
when the slot is not truncated, then set the slot's `truncated` flag when
the regex matched or the token budget `length-1` is reached. -/
def slotFinish (a : GenArgs) (s : BatchState) (i : Nat) (text : List Nat)
    (found : Bool) (total_tokens : Int) : BatchState :=
  let s2 := if !(s.truncated.getD i false) then appendChunk s i text else s
  let hitLen := match a.length with
    | some L => decide (total_tokens ≥ L - 1)
    | none => false
  if found || hitLen then { s2 with truncated := s2.truncated.set i true }
  else s2

/-- One slot of the per-batch inner loop body (source lines 509-547):
skip truncated slots; re-prepend the dropped first context token when a
prefix is in use; when a truthy truncation term is set or every slot's
`gen_text` is non-empty, slide the context window forward by
`split_context` and (for continuation chunks) keep only the trailing
`split_context` fraction of the output; run the truncation search; then
append and update the truncated flag. -/
def slotStep (S : Services) (n : NormArgs) (out : List (List Nat))
    (total_tokens : Int) (s : BatchState) (i : Nat) : BatchState :=
  snapState <|
    if s.truncated.getD i false then s
    else
      let a := n.base
      let outi := out.getD i []
      let text1 := if pyTruthyStr a.pfx || pyTruthyList a.batch_pfx then
                     (s.context_tokens.getD i []).take 1 ++ outi
                   else outi
      if pyTruthyStr a.truncate || allGenNonempty s then
        let sc := a.split_context
        let ctx' := pySliceFrom outi
          (ratMulTrunc outi.length ((sc.den : Int) - sc.num) sc.den)
        let s1 := { s with context_tokens := s.context_tokens.set i ctx' }
        let text2 := if !(readGen s1 i).isEmpty then
                       pySliceFrom outi (ratMulTrunc outi.length sc.num sc.den)
                     else text1
        let fr := if pyTruthyStr a.truncate then truncSearch S a text2
                  else (false, text2)
        slotFinish a s1 i fr.2 fr.1 total_tokens
      else
        slotFinish a s i text1 false total_tokens

/-- The `for i in range(batch_size)` loop of lines 509-547, slot by slot
over the evolving state. -/
def slotSteps (S : Services) (n : NormArgs) (out : List (List Nat))
    (total : Int) : List Nat → BatchState → BatchState
  | [], s => s
  | i :: is, s => slotSteps S n out total is (slotStep S n out total s i)

/-- `length if length else 1023` (line 497). -/
def lengthOr1023 (length : Option Int) : Int :=
  match length with
  | some l => if l ≠ 0 then l else 1023
  | none => 1023

/-- One iteration of the inner `while False in truncated` loop (source
lines 493-507 followed by the slot loop): compute the remaining window
budget from slot 0's context, call the sampling service, drop the first
token of each returned row (`[:, 1:]`), add `num_tokens` to the running
total, and process every slot. -/
def sampleIter (S : Services) (n : NormArgs) (s : BatchState) (total : Int) :
    BatchState × Int :=
  let num_tokens : Int := 1023 - ((s.context_tokens.headD []).length : Int)
  let outFull := S.sampleSeq (min (lengthOr1023 n.base.length) num_tokens)
    s.context_tokens
  let out := outFull.map (fun r => r.drop 1)
  let total' := total + num_tokens
  (slotSteps S n out total' (List.range n.bs) s, total')

/-- The inner `while False in truncated` loop (line 493), fuelled: `none`
when the fuel runs out before every slot is truncated. -/
def innerLoop (S : Services) (n : NormArgs) :
    Nat → BatchState × Int → Option (BatchState × Int)
  | 0, st => if st.1.truncated.contains false then none else some st
  | fuel + 1, st =>
      if st.1.truncated.contains false then
        innerLoop S n fuel (sampleIter S n st.1 st.2)
      else some st

/-- The outputs `generate` produces: the decoded strings collected in
`gen_texts` (line 556, unconditional), the strings written to the
destination file (line 553) and the strings printed (line 555), each
formatted as `"{gen}\n{sample_delim}"`. -/
structure GenOut where
  gen_texts : List Str
  fileWrites : List Str
  printed : List Str
  deriving DecidableEq, Repr

/-- Source lines 550-551: decode each chunk of the slot's list, strip its
leading newlines, and join. -/
def decodeSlot (S : Services) (s : BatchState) (i : Nat) : Str :=
  ((readGen s i).map (fun g => lstripNewline (S.decode g))).flatten

/-- The body of the `for gen in gen_text` output loop (lines 549-556) for
one slot: write when a destination is set, print when neither a
destination nor list mode is set, and always append to `gen_texts`. -/
def emitOne (a : GenArgs) (delim : Str) (S : Services) (s : BatchState)
    (o : GenOut) (i : Nat) : GenOut :=
  let gen := decodeSlot S s i
  let o1 := if pyTruthyStr a.destination_path then
              { o with fileWrites := o.fileWrites ++ [gen ++ '\n' :: delim] }
            else o
  let o2 := if !a.return_as_list && !(pyTruthyStr a.destination_path) then
              { o1 with printed := o1.printed ++ [gen ++ '\n' :: delim] }
            else o1
  { o2 with gen_texts := o2.gen_texts ++ [gen] }

/-- The `for gen in gen_text` loop over all slots. -/
def finishSlots (a : GenArgs) (delim : Str) (S : Services) (s : BatchState) :
    List Nat → GenOut → GenOut
  | [], o => o
  | i :: is, o => finishSlots a delim S s is (emitOne a delim S s o i)

/-- The outer `while generated < nsamples` loop (lines 485-558), fuelled.
`gen_text`, `truncated` and the token total are re-initialized for every
batch, but `context_tokens` is NOT reset - it carries over from the
previous batch exactly as in the source.  Accumulates the outputs and the
instrumentation snapshots of every batch. -/
def genLoop (S : Services) (n : NormArgs) (innerFuel : Nat) :
    Nat → Nat → List (List Nat) → GenOut → List (List Bool × List Nat) →
      Option (GenOut × List (List Bool × List Nat))
  | 0, generated, _, o, sn =>
      if generated < n.base.nsamples then none else some (o, sn)
  | fuel + 1, generated, ctx, o, sn =>
      if generated < n.base.nsamples then
        let s0 : BatchState :=
          ⟨ctx, [[]], List.replicate n.bs 0, List.replicate n.bs false, []⟩
        match innerLoop S n innerFuel (s0, 0) with
        | none => none
        | some (s1, _) =>
            genLoop S n innerFuel fuel (generated + n.bs) s1.context_tokens
              (finishSlots n.base n.delim S s1 (List.range n.bs) o)
              (sn ++ s1.snaps)
      else some (o, sn)

/-- The result of a completed `generate` call: its outputs, the
instrumentation snapshots, and the value returned to the caller
(`gen_texts` when `return_as_list`, else `None`, lines 563-564). -/
structure GenResult where
  out : GenOut
  snaps : List (List Bool × List Nat)
  returned : Option (List Str)
  deriving DecidableEq, Repr

/-- The whole of `generate` (source lines 411-564): argument checks and
normalization, initial context construction, then the fuelled sampling
loop.  `Except.error` is a raised pre-sampling exception; `.ok none` means
the fuel was exhausted (the source loop would still be running). -/
def generate (S : Services) (outerFuel innerFuel : Nat) (a : GenArgs) :
    Except PyError (Option GenResult) :=
  match generateChecks a with
  | .error e => .error e
  | .ok n =>
      let ctx0 := initContext S n.bs n.base.pfx n.base.batch_pfx
      match genLoop S n innerFuel outerFuel 0 ctx0 ⟨[], [], []⟩ [] with
      | none => .ok none
      | some (o, sn) =>
          .ok (some ⟨o, sn, if a.return_as_list then some o.gen_texts else none⟩)

/-- Decimal rendering of a natural number, as Python `str` produces for the
non-negative step counters `save()` writes (source line 289 writes
`str(counter-1) + '\n'`). -/
def natToChars (num : Nat) : Str :=
  if num = 0 then ['0']
  else ((Nat.digits 10 num).map (fun d => Char.ofNat (48 + d))).reverse

/-- The decimal digit value of a character, if it is one. -/
def digitVal? (c : Char) : Option Nat :=
  if 48 ≤ c.toNat ∧ c.toNat ≤ 57 then some (c.toNat - 48) else none

/-- Whether a character is ASCII whitespace (the kinds `save()`'s output
can contain is just the trailing newline). -/
def isPyWs (c : Char) : Bool :=
  c = ' ' || c = '\n' || c = '\t' || c = '\r'

/-- Accumulating decimal parse; `none` on any non-digit character. -/
def parseDigitsAux : Str → Nat → Option Nat
  | [], acc => some acc
  | c :: cs, acc =>
      match digitVal? c with
      | some d => parseDigitsAux cs (acc * 10 + d)
      | none => none

/-- Python `int(s)` on the strings `save()` writes (an optional-whitespace-
wrapped run of decimal digits): strip surrounding whitespace, then parse;
`none` models the `ValueError` raised otherwise. -/
def pyIntParse (s : Str) : Option Nat :=
  let t := ((s.dropWhile isPyWs).reverse.dropWhile isPyWs).reverse
  if t.isEmpty then none else parseDigitsAux t 0

/-- The bytes `save()` writes to the `counter` file (source lines 288-289):
the decimal rendering of `counter-1` followed by a newline. -/
def counterFileContent (counter : Nat) : Str :=
  natToChars (counter - 1) ++ ['\n']

/-- The initial step counter of a `finetune` run (source lines 269-275):
`1`, unless resuming (`restore_from == 'latest'` and the counter file
exists), in which case `int(file contents) + 1`; `none` models the
exception `int()` would raise on unparseable contents. -/
def initCounter (restoreLatest : Bool) (file : Option Str) : Option Nat :=
  match file, restoreLatest with
  | some content, true => (pyIntParse content).map (· + 1)
  | _, _ => some 1

/-- The running-average-loss update of one training iteration (source
lines 350-352): only when `counter % print_every == 0` does the loop set
`avg = avg*0.99 + loss` and `weight = weight*0.99 + 1`; otherwise the pair
is untouched.  The reported value is `avg/weight` (line 360). -/
def avgLossUpdate (print_every counter : Int) (v_loss : ℚ) (avg : ℚ × ℚ) :
    ℚ × ℚ :=
  if counter % print_every = 0 then
    (avg.1 * (99 / 100) + v_loss, avg.2 * (99 / 100) + 1)
  else avg

/-- Observable events of the training loop, for stating trace properties:
checkpoint saves, sample generations, the start of an iteration's
training op(s), and the individual session calls of the gradient step. -/
inductive TEv where
  | save
  | sampleEv
  | trainOpStart (counter : Int)
  | reset
  | sampleBatch
  | compute
  | apply
  | summaryAdd
  deriving DecidableEq, Repr

/-- The event sequence of the `for _ in range(accumulate_gradients)` loop
body (source lines 339-341): each pass evaluates `sample_batch()` and then
runs `opt_compute`. -/
def computePasses : Nat → List TEv
  | 0 => []
  | k + 1 => computePasses k ++ [TEv.sampleBatch, TEv.compute]

/-- The session calls of one gradient step (source lines 337-346): with
`accumulate_gradients > 1`, run `opt_reset`, then the compute loop, then
one `opt_apply`; otherwise evaluate `sample_batch()` once and run the
direct `opt_apply` in a single session call. -/
def trainOpEvents (accumulate_gradients : Nat) : List TEv :=
  if 1 < accumulate_gradients then
    TEv.reset :: computePasses accumulate_gradients ++ [TEv.apply]
  else
    [TEv.sampleBatch, TEv.apply]

/-- Exceptions the opaque session calls can raise into the training loop:
the interrupt signal (`KeyboardInterrupt`) or any other exception. -/
inductive PyExc where
  | keyboardInterrupt
  | other (code : Nat)
  deriving DecidableEq, Repr

/-- How a fuelled run of the training loop ended. -/
inductive TrainOutcome where
  | completed
  | interrupted
  | errored (e : PyExc)
  | outOfFuel
  deriving DecidableEq, Repr

/-- Result of a fuelled training-loop run: the outcome, the event trace,
the final counter and the final loss statistics. -/
structure TrainRes where
  outcome : TrainOutcome
  events : List TEv
  counterFinal : Int
  avg : ℚ × ℚ
  deriving DecidableEq, Repr

/-- The `try: while True:` training loop of `finetune` (source lines
327-365), fuelled.  `oracle counter` is the outcome of the iteration's
gradient-step session call(s): a loss value, or a raised exception
(modelled at the granularity of one iteration's training op; spec section
5 states the interrupt is polled between steps).  Per iteration, in source
order: terminate with a save when the step budget is reached (329-331);
periodic save (332-333) and periodic sampling (334-335); the gradient
step (337-346); the summary write (348); the conditional loss-average
update (350-360); `counter += 1` (362).  `except KeyboardInterrupt` (363)
performs a final save and returns; any other exception propagates with no
further action. -/
def trainLoop (oracle : Int → Except PyExc ℚ) (steps counter_base : Int)
    (save_every sample_every print_every : Int) (A : Nat) :
    Nat → Int → ℚ × ℚ → List TEv → TrainRes
  | 0, counter, avg, evs => ⟨.outOfFuel, evs, counter, avg⟩
  | fuel + 1, counter, avg, evs =>
      if 0 < steps ∧ counter = counter_base + steps then
        ⟨.completed, evs ++ [TEv.save], counter, avg⟩
      else
        let evs1 := evs ++
          (if (counter - 1) % save_every = 0 ∧ 1 < counter then [TEv.save]
           else [])
        let evs2 := evs1 ++
          (if (counter - 1) % sample_every = 0 ∧ 1 < counter then
             [TEv.sampleEv]
           else [])
        let evs3 := evs2 ++ [TEv.trainOpStart counter]
        match oracle counter with
        | .error .keyboardInterrupt =>
            ⟨.interrupted, evs3 ++ [TEv.save], counter, avg⟩
        | .error (.other k) => ⟨.errored (.other k), evs3, counter, avg⟩
        | .ok v =>
            let evs4 := evs3 ++ trainOpEvents A ++ [TEv.summaryAdd]
            let avg' := avgLossUpdate print_every counter v avg
            trainLoop oracle steps counter_base save_every sample_every
              print_every A fuel (counter + 1) avg' evs4

/-- A concrete instantiation of the opaque services, used to evaluate the
model at concrete inputs: token ids are character codes (so encode/decode
round-trip), `<|endoftext|>` is id 9, and the sampling op echoes the
context row and appends the two token ids 65, 66 (`'A'`, `'B'`). -/
def stubS : Services :=
  { encode := fun s => s.map Char.toNat
    decode := fun ts => ts.map Char.ofNat
    endoftext := 9
    sampleSeq := fun _ ctxs => ctxs.map (fun c => c ++ [65, 66]) }

/-- Sampling stub for the truncation counterexample: continuing the
initial context it produces ids 97, 98 (`'a'`, `'b'`); continuing the
slid-forward context `[98]` it produces 98, 99 (so the decoded
continuation of the second window is `"bc"`). -/
def stubC3sample (ctxs : List (List Nat)) : List (List Nat) :=
  ctxs.map (fun c => c ++ (if c = [98] then [98, 99] else [97, 98]))

/-- Services for the truncation counterexample. -/
def stubC3 : Services :=
  { stubS with sampleSeq := fun _ ctxs => stubC3sample ctxs }

/-- Whether an instrumentation snapshot trace witnesses a violation of the
per-slot invariant "once `truncated[i]` is true, no further tokens are
appended to `gen_text[i]`": some snapshot shows slot `i` truncated with
`k` accumulated tokens while a later snapshot shows slot `i` with more
than `k` tokens. -/
def hasC2Violation (snaps : List (List Bool × List Nat)) : Bool :=
  (List.range snaps.length).any fun u =>
    (List.range snaps.length).any fun w =>
      decide (u ≤ w) &&
        (let x := snaps.getD u ([], [])
         let y := snaps.getD w ([], [])
         (List.range x.1.length).any fun i =>
           x.1.getD i false && decide (x.2.getD i 0 < y.2.getD i 0))

/-- Claim C7's first listed condition: `nsamples` not divisible by the
effective batch size. -/
def CondDiv (a : GenArgs) : Prop :=
  ¬ (a.nsamples % (a.batch_size.getD 1) = 0)

/-- Claim C7's second listed condition: both a (truthy) `prefix` and a
(truthy) `batch_prefix` are supplied. -/
def CondBoth (a : GenArgs) : Prop :=
  pyTruthyStr a.pfx = true ∧ pyTruthyList a.batch_pfx = true

/-- Claim C7's third listed condition: `length` falsy with no truncation
term given. -/
def CondLen (a : GenArgs) : Prop :=
  pyTruthyLen a.length = false ∧ a.truncate = none

/-- The fourth assert of the source (line 443), which claim C7 omits: a
truthy `batch_prefix` whose length differs from the batch size. -/
def CondBplen (a : GenArgs) : Prop :=
  pyTruthyList a.batch_pfx = true ∧
    ¬ ((a.batch_pfx.getD []).length = a.batch_size.getD 1)

/-- Every chunk stored in any `gen_text` list object decodes to a string
in which the truncation term `t` does not occur. -/
def TruncFreeState (S : Services) (t : Str) (s : BatchState) : Prop :=
  ∀ cell ∈ s.genStore, ∀ g ∈ cell, containsSubstrB t (S.decode g) = false

/-- A string is a concatenation of pieces none of which contains `t`
(`t` can therefore only occur spanning a piece boundary). -/
def ChunkwiseTruncFree (t txt : Str) : Prop :=
  ∃ pieces : List Str, txt = pieces.flatten ∧
    ∀ p ∈ pieces, containsSubstrB t p = false

/-- The output-routing invariant of the `for gen in gen_text` loop:
file writes happen exactly when a destination is set (one per text),
printing happens exactly when neither a destination nor list mode is set
(one per text), and writing and printing never co-occur. -/
def RoutingInv (dest ret : Bool) (o : GenOut) : Prop :=
  (dest = false → o.fileWrites = []) ∧
  (dest = true → o.fileWrites.length = o.gen_texts.length) ∧
  ((ret = true ∨ dest = true) → o.printed = []) ∧
  (ret = false → dest = false → o.printed.length = o.gen_texts.length)

/-- Arguments of the aliasing run: two samples in one batch of two, token
budget 2, no truncation term. -/
def argsC2 : GenArgs :=
  { nsamples := 2, batch_size := some 2, length := some 2 }

/-- Arguments of the truncation-boundary run: one sample, truncation term
`"bc"`, token budget 2000 (so the loop runs two context windows). -/
def argsC3 : GenArgs :=
  { nsamples := 1, batch_size := some 1, truncate := some ['b', 'c'],
    length := some 2000 }

/-- Arguments selecting both a destination file and list-return mode. -/
def argsC4 : GenArgs :=
  { nsamples := 1, batch_size := some 1, length := some 2,
    destination_path := some ['f'], return_as_list := true }

/-- Arguments triggering only the fourth assert: a `batch_prefix` of
length 2 with batch size 1, everything else well-formed. -/
def argsC7 : GenArgs :=
  { nsamples := 1, batch_size := some 1, batch_pfx := some [['a'], ['b']] }

/-- Arguments with `nsamples` not divisible by the batch size. -/
def argsW7 : GenArgs :=
  { nsamples := 3, batch_size := some 2 }

/-- Arguments requesting two samples in batches of one, token budget 2. -/
def argsC1 : GenArgs :=
  { nsamples := 2, batch_size := some 1, length := some 2 }

/-- The result of running `generate` with `stubS` on `argsC1`: two decoded
strings, both printed with the default sample delimiter appended. -/
def resC1 : GenResult :=
  ⟨⟨[['A', 'B'], ['A', 'B']], [],
    [['A', 'B', '\n'] ++ (List.replicate 20 '=' ++ ['\n']),
     ['A', 'B', '\n'] ++ (List.replicate 20 '=' ++ ['\n'])]⟩,
   [([true], [2]), ([true], [2])], none⟩

/-- Arguments for a single printed sample (no destination, no list mode). -/
def argsW4 : GenArgs :=
  { nsamples := 1, batch_size := some 1, length := some 2 }

/-- The result of running `generate` with `stubS` on `argsW4`: one text,
printed only (the sample delimiter is cleared since `nsamples == 1`). -/
def resW4 : GenResult :=
  ⟨⟨[['A', 'B']], [], [['A', 'B', '\n']]⟩, [([true], [2])], none⟩

/-- Arguments for one sample with truncation term `"b"` (found inside the
first sampled chunk, which is cut at it). -/
def argsW3 : GenArgs :=
  { nsamples := 1, batch_size := some 1, truncate := some ['b'],
    length := some 2 }

/-- The result of running `generate` with `stubC3` on `argsW3`: the chunk
decoding to `"ab"` is cut at the first `"b"`, leaving `"a"`. -/
def resW3 : GenResult :=
  ⟨⟨[['a']], [], [['a', '\n']]⟩, [([true], [1])], none⟩

/-- A session oracle that raises `KeyboardInterrupt` at training step 2
and otherwise reports loss 1. -/
def oracleW : Int → Except PyExc ℚ :=
  fun c => if c = 2 then .error .keyboardInterrupt else .ok 1

/-- A concrete fuelled training-loop run with `oracleW` (step budget 5,
counter base 1, gradient accumulation 3). -/
def trainRunW : TrainRes :=
  trainLoop oracleW 5 1 100 100 1 3 10 1 (0, 0) []

theorem digitVal_ofNat (d : Nat) (hd : d < 10) :
    digitVal? (Char.ofNat (48 + d)) = some d := by
  interval_cases d <;> decide

theorem isPyWs_digit (d : Nat) (hd : d < 10) :
    isPyWs (Char.ofNat (48 + d)) = false := by
  interval_cases d <;> decide

theorem natToChars_mem (n : Nat) :
    ∀ ch ∈ natToChars n, ∃ d, d < 10 ∧ ch = Char.ofNat (48 + d) := by
  intro ch h
  unfold natToChars at h
  split at h
  · simp only [List.mem_singleton] at h
    exact ⟨0, by decide, by simp [h]⟩
  · simp only [List.mem_reverse, List.mem_map] at h
    obtain ⟨d, hd, rfl⟩ := h
    exact ⟨d, Nat.digits_lt_base (by norm_num) hd, rfl⟩

theorem natToChars_ne_nil (n : Nat) : natToChars n ≠ [] := by
  unfold natToChars
  split
  · simp
  · next h =>
    simp only [ne_eq, List.reverse_eq_nil_iff, List.map_eq_nil_iff]
    exact Nat.digits_ne_nil_iff_ne_zero.mpr h

theorem dropWhile_eq_self_of_forall {α : Type} (p : α → Bool) :
    ∀ l : List α, (∀ x ∈ l, p x = false) → l.dropWhile p = l
  | [], _ => rfl
  | a :: l, h => by
    have ha := h a (by simp)
    simp [List.dropWhile_cons, ha]

theorem parseDigitsAux_map (l : List Nat) (hl : ∀ d ∈ l, d < 10) :
    ∀ acc, parseDigitsAux (l.map (fun d => Char.ofNat (48 + d))) acc
      = some (l.foldl (fun a d => a * 10 + d) acc) := by
  induction l with
  | nil => intro acc; rfl
  | cons d l ih =>
      intro acc
      have hd : d < 10 := hl d (by simp)
      simp only [List.map_cons, parseDigitsAux, digitVal_ofNat d hd,
        List.foldl_cons]
      exact ih (fun x hx => hl x (by simp [hx])) _

theorem foldr_eq_ofDigits (l : List Nat) :
    l.foldr (fun d a => a * 10 + d) 0 = Nat.ofDigits 10 l := by
  induction l with
  | nil => simp [Nat.ofDigits]
  | cons d l ih =>
      simp only [List.foldr_cons, ih, Nat.ofDigits_cons]
      ring

theorem parse_natToChars (n : Nat) :
    parseDigitsAux (natToChars n) 0 = some n := by
  by_cases h0 : n = 0
  · subst h0; decide
  · unfold natToChars
    rw [if_neg h0, ← List.map_reverse]
    have hlt : ∀ d ∈ (Nat.digits 10 n).reverse, d < 10 := fun d hd =>
      Nat.digits_lt_base (by norm_num) (List.mem_reverse.mp hd)
    rw [parseDigitsAux_map _ hlt]
    congr 1
    rw [List.foldl_reverse, foldr_eq_ofDigits, Nat.ofDigits_digits]

theorem pyIntParse_counterFile (n : Nat) :
    pyIntParse (natToChars n ++ ['\n']) = some n := by
  have hnws : ∀ ch ∈ natToChars n, isPyWs ch = false := by
    intro ch h
    obtain ⟨d, hd, rfl⟩ := natToChars_mem n ch h
    exact isPyWs_digit d hd
  obtain ⟨c, cs, hcons⟩ : ∃ c cs, natToChars n = c :: cs := by
    cases hnat : natToChars n with
    | nil => exact absurd hnat (natToChars_ne_nil n)
    | cons c cs => exact ⟨c, cs, rfl⟩
  unfold pyIntParse
  have h1 : (natToChars n ++ ['\n']).dropWhile isPyWs
      = natToChars n ++ ['\n'] := by
    rw [hcons]
    have hc : isPyWs c = false := hnws c (by rw [hcons]; simp)
    simp [List.dropWhile_cons, hc]
  rw [h1, List.reverse_append]
  have h2 : (['\n'].reverse ++ (natToChars n).reverse).dropWhile isPyWs
      = (natToChars n).reverse := by
    have he : (['\n'].reverse ++ (natToChars n).reverse)
        = '\n' :: (natToChars n).reverse := by simp
    rw [he, List.dropWhile_cons, if_pos (by decide)]
    exact dropWhile_eq_self_of_forall _ _
      (fun x hx => hnws x (List.mem_reverse.mp hx))
  rw [h2, List.reverse_reverse]
  have hne : (natToChars n).isEmpty = false := by
    rw [hcons]; rfl
  rw [if_neg (by simp [hne])]
  exact parse_natToChars n

/-- C5: every `save()` writes `counter-1` followed by a newline to the
counter file; a subsequent run resuming from `latest` parses that value
back and starts with counter `(counter-1)+1 = counter`, i.e. its next
training step is the persisted value plus one. -/
theorem counter_file_roundtrip (c : Nat) (h : 1 ≤ c) :
    counterFileContent c = natToChars (c - 1) ++ ['\n'] ∧
    pyIntParse (counterFileContent c) = some (c - 1) ∧
    initCounter true (some (counterFileContent c)) = some c := by
  refine ⟨rfl, pyIntParse_counterFile _, ?_⟩
  have h2 : c - 1 + 1 = c := by omega
  simp only [initCounter, counterFileContent]
  rw [pyIntParse_counterFile]
  simp [h2]

/-- Witness for C5 at counter 5: the file holds the digits of 4 and a
newline, and resuming restarts at counter 5. -/
theorem counter_file_roundtrip_witness :
    1 ≤ 5 ∧
      (counterFileContent 5 = natToChars 4 ++ ['\n'] ∧
       pyIntParse (counterFileContent 5) = some 4 ∧
       initCounter true (some (counterFileContent 5)) = some 5) :=
  ⟨by decide, counter_file_roundtrip 5 (by decide)⟩

/-- C6 counterexample: the claim says the running average state is
updated on EVERY training-loop iteration; but with `print_every = 2` the
iteration at `counter = 1` leaves the state `(0, 0)` untouched (the update
is guarded by `counter % print_every == 0`, source line 350), whereas the
claimed update would have produced a second component `0*0.99 + 1 ≠ 0`. -/
theorem avg_skipped_iteration :
    avgLossUpdate 2 1 5 (0, 0) = (0, 0) ∧
    ((0 : ℚ), (0 : ℚ)).2 ≠
      ((0 : ℚ) * (99 / 100) + 5, (0 : ℚ) * (99 / 100) + 1).2 :=
  ⟨rfl, by simp⟩

/-- C6 (amended): on every iteration with `counter % print_every == 0`
the state is updated as `avg = avg*0.99 + loss`, `weight = weight*0.99 + 1`,
and after one such update from the initial state `(0,0)` with loss `v` the
reported value `avg/weight` equals `v`. -/
theorem avg_update_on_print_iterations (pe c : Int) (v a w : ℚ)
    (h : c % pe = 0) :
    avgLossUpdate pe c v (a, w) = (a * (99 / 100) + v, w * (99 / 100) + 1) ∧
    (avgLossUpdate pe c v (0, 0)).1 / (avgLossUpdate pe c v (0, 0)).2 = v := by
  constructor
  · simp [avgLossUpdate, h]
  · simp [avgLossUpdate, h]

/-- Witness for the amended C6 at `print_every = 1`, `counter = 1`,
loss 7. -/
theorem avg_update_on_print_iterations_witness :
    (1 : Int) % 1 = 0 ∧
      (avgLossUpdate 1 1 7 (0, 0)
          = ((0 : ℚ) * (99 / 100) + 7, (0 : ℚ) * (99 / 100) + 1) ∧
       (avgLossUpdate 1 1 7 (0, 0)).1 / (avgLossUpdate 1 1 7 (0, 0)).2 = 7) :=
  ⟨by decide, avg_update_on_print_iterations 1 1 7 0 0 (by decide)⟩

theorem computePasses_eq (k : Nat) :
    computePasses k
      = (List.replicate k [TEv.sampleBatch, TEv.compute]).flatten := by
  induction k with
  | zero => rfl
  | succ k ih =>
      rw [computePasses, ih, List.replicate_succ', List.flatten_append]
      simp

/-- C9: with `accumulate_gradients = A > 1` one loop iteration first runs
the accumulator reset, then exactly `A` passes of batch sampling followed
by gradient compute, and only then a single optimizer apply; with
`A ≤ 1` it samples a single batch and applies directly. -/
theorem gradient_accumulation_trace (A : Nat) :
    (1 < A → trainOpEvents A
        = TEv.reset ::
            ((List.replicate A [TEv.sampleBatch, TEv.compute]).flatten
              ++ [TEv.apply])) ∧
    (A ≤ 1 → trainOpEvents A = [TEv.sampleBatch, TEv.apply]) := by
  constructor
  · intro h
    rw [trainOpEvents, if_pos h, computePasses_eq]
    simp
  · intro h
    rw [trainOpEvents, if_neg (by omega)]

/-- Witness for C9 at `A = 3`: reset, then three sample/compute passes,
then one apply. -/
theorem gradient_accumulation_trace_witness :
    1 < 3 ∧ trainOpEvents 3
      = TEv.reset ::
          ((List.replicate 3 [TEv.sampleBatch, TEv.compute]).flatten
            ++ [TEv.apply]) :=
  ⟨by decide, (gradient_accumulation_trace 3).1 (by decide)⟩

theorem generateChecks_empty_pfx (a : GenArgs) :
    generateChecks { a with pfx := some [] }
      = generateChecks { a with pfx := none } := by
  unfold generateChecks
  simp [pyTruthyStr]

theorem generateChecks_empty_batch_pfx (a : GenArgs) :
    generateChecks { a with batch_pfx := some [] }
      = generateChecks { a with batch_pfx := none } := by
  unfold generateChecks
  simp [pyTruthyList]

/-- C10: an empty-string `prefix` and an empty-list `batch_prefix` are
normalized to `None`, so the whole of `generate` behaves exactly as with
no prefix supplied; and with no prefix, every slot's initial context is
the single `<|endoftext|>` token. -/
theorem empty_prefix_normalization (S : Services) (f g : Nat) (a : GenArgs)
    (bs : Nat) :
    generate S f g { a with pfx := some [] }
        = generate S f g { a with pfx := none } ∧
    generate S f g { a with batch_pfx := some [] }
        = generate S f g { a with batch_pfx := none } ∧
    initContext S bs none none = List.replicate bs [S.endoftext] := by
  refine ⟨?_, ?_, rfl⟩
  · unfold generate
    rw [generateChecks_empty_pfx]
  · unfold generate
    rw [generateChecks_empty_batch_pfx]

/-- C7 counterexample: with a well-formed divisibility, a single prefix
absent, and a truthy `length`, none of the claim's three conditions
holds - yet `generate` still fails an assertion before any sampling,
namely the fourth assert `len(batch_prefix) == batch_size` (line 443). -/
theorem assert_outside_claimed_conditions :
    generate stubS 1 1 argsC7 = .error (.assertFail .batchPrefixLen) ∧
    ¬ CondDiv argsC7 ∧ ¬ CondBoth argsC7 ∧ ¬ CondLen argsC7 :=
  ⟨rfl, by unfold CondDiv; decide, by unfold CondBoth; decide,
    by unfold CondLen; decide⟩

/-- C7 amended: an assertion fires in `generate` (before any model call,
second conjunct: a raised check error makes `generate` return it for
every model service and any fuel) exactly when `nsamples` is not
divisible by the batch size, or both prefixes are truthy, or `length` is
falsy with no truncation term, or - the condition the claim omits - a
truthy `batch_prefix` has length different from the batch size. -/
theorem generate_assert_characterization (a : GenArgs)
    (hbs : a.batch_size.getD 1 ≠ 0) :
    ((∃ c, generateChecks a = .error (.assertFail c)) ↔
      (CondDiv a ∨ CondBoth a ∨ CondLen a ∨ CondBplen a)) ∧
    (∀ e S f g, generateChecks a = .error e → generate S f g a = .error e) := by
  constructor
  · unfold generateChecks CondDiv CondBoth CondLen CondBplen
    dsimp only
    rw [if_neg hbs]
    by_cases h2 : a.nsamples % a.batch_size.getD 1 = 0
    case neg =>
      rw [if_pos h2]
      exact iff_of_true ⟨_, rfl⟩ (Or.inl h2)
    rw [if_neg (not_not_intro h2)]
    by_cases h3 : pyTruthyStr a.pfx = true ∧ pyTruthyList a.batch_pfx = true
    case pos =>
      rw [if_pos h3]
      exact iff_of_true ⟨_, rfl⟩ (Or.inr (Or.inl h3))
    rw [if_neg h3]
    by_cases h4 : pyTruthyList a.batch_pfx = true ∧
        ¬ ((a.batch_pfx.getD []).length = a.batch_size.getD 1)
    case pos =>
      rw [if_pos h4]
      exact iff_of_true ⟨_, rfl⟩ (Or.inr (Or.inr (Or.inr h4)))
    rw [if_neg h4]
    by_cases h5 : pyTruthyLen a.length = false ∧ a.truncate = none
    case pos =>
      rw [if_pos h5]
      exact iff_of_true ⟨_, rfl⟩ (Or.inr (Or.inr (Or.inl h5)))
    rw [if_neg h5]
    refine iff_of_false ?_ ?_
    · rintro ⟨c, hc⟩
      simp at hc
    · rintro (h | h | h | h)
      · exact h h2
      · exact h3 h
      · exact h5 h
      · exact h4 h
  · intro e S f g he
    unfold generate
    rw [he]

/-- Witness for the amended C7 at `nsamples = 3`, `batch_size = 2`:
divisibility fails, so an assertion fires. -/
theorem generate_assert_characterization_witness :
    argsW7.batch_size.getD 1 = 2 ∧
      (∃ c, generateChecks argsW7 = .error (.assertFail c)) :=
  ⟨rfl, (generate_assert_characterization argsW7 (by decide)).1.mpr
    (Or.inl (by unfold CondDiv; decide))⟩

/-- C2: evaluated at `batch_size = 2`, the invariant fails: the first
snapshot (after slot 0's step) shows slot 0 truncated with 2 accumulated
tokens, the second (after slot 1's step, same iteration) shows slot 0's
`gen_text[0]` grown to 3 tokens - slot 1's append lands in slot 0's list
because `gen_text = [[]] * batch_size` makes all slots share one list
object. -/
theorem gen_text_aliasing_run :
    (generate stubS 2 2 argsC2).map
        (fun r => r.map (fun g => (g.snaps, hasC2Violation g.snaps)))
      = .ok (some ([([true, false], [2, 2]), ([true, true], [3, 3])], true)) := by
  rfl

/-- C3 counterexample: with truncation term `"bc"` the run returns the
string `"abc"`, which contains `"bc"` and text following it - the term
occurred spanning two sampled windows (the second window's decoded
continuation is exactly `"bc"`, third conjunct), and the per-chunk regex
search never sees it. -/
theorem truncate_term_survives :
    (generate stubC3 2 3 argsC3).map
        (fun r => r.map (fun g => g.out.gen_texts))
      = .ok (some [['a', 'b', 'c']]) ∧
    containsSubstrB ['b', 'c'] ['a', 'b', 'c'] = true ∧
    stubC3.decode (((stubC3sample [[98]]).headD []).drop 1) = ['b', 'c'] :=
  ⟨rfl, rfl, rfl⟩

/-- C4 counterexample: with both `destination_path` and `return_as_list`
set, the single generated text `"AB"` is written to the destination AND
collected into the returned list - two output actions for one text,
because `gen_texts.append` (line 556) is unconditional and the list is
returned whenever `return_as_list` is set. -/
theorem text_written_and_returned :
    generate stubS 2 2 argsC4
      = .ok (some ⟨⟨[['A', 'B']], [['A', 'B', '\n']], []⟩,
          [([true], [2])], some [['A', 'B']]⟩) := by
  rfl

theorem generateChecks_fields (a : GenArgs) (n : NormArgs)
    (h : generateChecks a = .ok n) :
    n.bs = a.batch_size.getD 1 ∧ n.base.nsamples = a.nsamples ∧
    n.base.destination_path = a.destination_path ∧
    n.base.return_as_list = a.return_as_list ∧
    n.base.truncate = a.truncate ∧
    n.base.include_pfx = a.include_pfx ∧
    pyTruthyStr n.base.pfx = pyTruthyStr a.pfx := by
  unfold generateChecks at h
  dsimp only at h
  split_ifs at h
  all_goals cases h
  all_goals exact ⟨rfl, rfl, rfl, rfl, rfl, rfl, by simp_all [pyTruthyStr]⟩

theorem emitOne_gen_texts_len (a : GenArgs) (delim : Str) (S : Services)
    (s : BatchState) (o : GenOut) (i : Nat) :
    (emitOne a delim S s o i).gen_texts.length = o.gen_texts.length + 1 := by
  unfold emitOne
  dsimp only
  split_ifs <;> simp

theorem finishSlots_gen_texts_len (a : GenArgs) (delim : Str) (S : Services)
    (s : BatchState) :
    ∀ (l : List Nat) (o : GenOut),
      (finishSlots a delim S s l o).gen_texts.length
        = o.gen_texts.length + l.length := by
  intro l
  induction l with
  | nil => intro o; simp [finishSlots]
  | cons i is ih =>
      intro o
      rw [finishSlots, ih, emitOne_gen_texts_len]
      simp
      omega

theorem genLoop_texts_len (S : Services) (n : NormArgs) (innerFuel : Nat) :
    ∀ (fuel generated : Nat) (ctx : List (List Nat)) (o : GenOut)
      (sn : List (List Bool × List Nat))
      (res : GenOut × List (List Bool × List Nat)),
      genLoop S n innerFuel fuel generated ctx o sn = some res →
      (∃ k, n.base.nsamples = generated + k * n.bs) →
      res.1.gen_texts.length
        = o.gen_texts.length + (n.base.nsamples - generated) := by
  intro fuel
  induction fuel with
  | zero =>
      intro generated ctx o sn res h hk
      rw [genLoop] at h
      by_cases hg : generated < n.base.nsamples
      · rw [if_pos hg] at h; cases h
      · rw [if_neg hg] at h
        cases h
        obtain ⟨k, hk⟩ := hk
        have hz : k * n.bs = 0 := by omega
        have : n.base.nsamples = generated := by omega
        simp [this]
  | succ fuel ih =>
      intro generated ctx o sn res h hk
      rw [genLoop] at h
      by_cases hg : generated < n.base.nsamples
      case neg =>
        rw [if_neg hg] at h
        cases h
        obtain ⟨k, hk⟩ := hk
        have hz : k * n.bs = 0 := by omega
        have : n.base.nsamples = generated := by omega
        simp [this]
      rw [if_pos hg] at h
      dsimp only at h
      obtain ⟨k, hk⟩ := hk
      have hkpos : k ≠ 0 := by
        rintro rfl
        simp at hk
        omega
      obtain ⟨k', rfl⟩ := Nat.exists_eq_succ_of_ne_zero hkpos
      rw [Nat.succ_mul] at hk
      cases hinner : innerLoop S n innerFuel
          (⟨ctx, [[]], List.replicate n.bs 0, List.replicate n.bs false, []⟩, 0) with
      | none => rw [hinner] at h; cases h
      | some s1p =>
          rw [hinner] at h
          have hnext : ∃ k, n.base.nsamples = (generated + n.bs) + k * n.bs :=
            ⟨k', by omega⟩
          have hrec := ih _ _ _ _ _ h hnext
          rw [finishSlots_gen_texts_len] at hrec
          simp only [List.length_range] at hrec
          omega

/-- C1: whenever `nsamples` is a positive multiple of the batch size and
the sampling loop terminates (the fuelled run returns a result), exactly
`nsamples` decoded strings are collected by the output loop, one per
requested sample. -/
theorem generate_produces_nsamples (S : Services) (f g : Nat) (a : GenArgs)
    (r : GenResult) (hbs : 0 < a.batch_size.getD 1) (hpos : 0 < a.nsamples)
    (hdvd : a.batch_size.getD 1 ∣ a.nsamples)
    (h : generate S f g a = .ok (some r)) :
    r.out.gen_texts.length = a.nsamples := by
  unfold generate at h
  cases hc : generateChecks a with
  | error e => rw [hc] at h; cases h
  | ok n =>
      rw [hc] at h
      dsimp only at h
      obtain ⟨hbs', hns, -, -, -, -, -⟩ := generateChecks_fields a n hc
      cases hloop : genLoop S n g f 0
          (initContext S n.bs n.base.pfx n.base.batch_pfx) ⟨[], [], []⟩ [] with
      | none =>
          rw [hloop] at h
          simp at h
      | some p =>
          obtain ⟨o, sn⟩ := p
          rw [hloop] at h
          dsimp only at h
          cases h
          have hlen := genLoop_texts_len S n g f 0 _ _ _ _ hloop
            (by
              obtain ⟨k, hk⟩ := hdvd
              exact ⟨k, by rw [hns, hk, hbs']; ring⟩)
          simpa [hns] using hlen

/-- Witness for C1: two samples in batches of one produce exactly two
strings. -/
theorem generate_produces_nsamples_witness :
    0 < argsC1.batch_size.getD 1 ∧ 0 < argsC1.nsamples ∧
    argsC1.batch_size.getD 1 ∣ argsC1.nsamples ∧
    generate stubS 3 2 argsC1 = .ok (some resC1) ∧
    resC1.out.gen_texts.length = argsC1.nsamples :=
  ⟨by decide, by decide, by decide, by rfl,
    generate_produces_nsamples stubS 3 2 argsC1 resC1 (by decide) (by decide)
      (by decide) (by rfl)⟩

theorem emitOne_routing (a : GenArgs) (delim : Str) (S : Services)
    (s : BatchState) (o : GenOut) (i : Nat)
    (h : RoutingInv (pyTruthyStr a.destination_path) a.return_as_list o) :
    RoutingInv (pyTruthyStr a.destination_path) a.return_as_list
      (emitOne a delim S s o i) := by
  obtain ⟨h1, h2, h3, h4⟩ := h
  unfold emitOne RoutingInv
  dsimp only
  cases hdest : pyTruthyStr a.destination_path <;>
    cases hret : a.return_as_list <;>
      simp_all

theorem finishSlots_routing (a : GenArgs) (delim : Str) (S : Services)
    (s : BatchState) :
    ∀ (l : List Nat) (o : GenOut),
      RoutingInv (pyTruthyStr a.destination_path) a.return_as_list o →
      RoutingInv (pyTruthyStr a.destination_path) a.return_as_list
        (finishSlots a delim S s l o) := by
  intro l
  induction l with
  | nil => intro o h; simpa [finishSlots] using h
  | cons i is ih =>
      intro o h
      rw [finishSlots]
      exact ih _ (emitOne_routing a delim S s o i h)

theorem genLoop_routing (S : Services) (n : NormArgs) (innerFuel : Nat) :
    ∀ (fuel generated : Nat) (ctx : List (List Nat)) (o : GenOut)
      (sn : List (List Bool × List Nat))
      (res : GenOut × List (List Bool × List Nat)),
      genLoop S n innerFuel fuel generated ctx o sn = some res →
      RoutingInv (pyTruthyStr n.base.destination_path) n.base.return_as_list o →
      RoutingInv (pyTruthyStr n.base.destination_path) n.base.return_as_list
        res.1 := by
  intro fuel
  induction fuel with
  | zero =>
      intro generated ctx o sn res h hinv
      rw [genLoop] at h
      by_cases hg : generated < n.base.nsamples
      · rw [if_pos hg] at h; cases h
      · rw [if_neg hg] at h; cases h; exact hinv
  | succ fuel ih =>
      intro generated ctx o sn res h hinv
      rw [genLoop] at h
      by_cases hg : generated < n.base.nsamples
      case neg => rw [if_neg hg] at h; cases h; exact hinv
      rw [if_pos hg] at h
      dsimp only at h
      cases hinner : innerLoop S n innerFuel
          (⟨ctx, [[]], List.replicate n.bs 0, List.replicate n.bs false, []⟩, 0) with
      | none => rw [hinner] at h; cases h
      | some s1p =>
          rw [hinner] at h
          exact ih _ _ _ _ _ h
            (finishSlots_routing n.base n.delim S s1p.1 (List.range n.bs) o hinv)

/-- C4 (amended): each produced text is written to the destination file
iff `destination_path` is set, printed iff neither `destination_path` nor
`return_as_list` is set, and collected into the returned list iff
`return_as_list` is set.  Writing and printing never co-occur, so the
output action is unique except in the one combination the claim misses:
with both `destination_path` and `return_as_list` set, each text is both
written and collected into the returned list. -/
theorem generate_output_routing (S : Services) (f g : Nat) (a : GenArgs)
    (r : GenResult) (h : generate S f g a = .ok (some r)) :
    (pyTruthyStr a.destination_path = false → r.out.fileWrites = []) ∧
    (pyTruthyStr a.destination_path = true →
        r.out.fileWrites.length = r.out.gen_texts.length) ∧
    ((a.return_as_list = true ∨ pyTruthyStr a.destination_path = true) →
        r.out.printed = []) ∧
    (a.return_as_list = false → pyTruthyStr a.destination_path = false →
        r.out.printed.length = r.out.gen_texts.length) ∧
    (r.returned = if a.return_as_list then some r.out.gen_texts else none) := by
  unfold generate at h
  cases hc : generateChecks a with
  | error e => rw [hc] at h; cases h
  | ok n =>
      rw [hc] at h
      dsimp only at h
      obtain ⟨-, -, hdest, hret, -, -, -⟩ := generateChecks_fields a n hc
      cases hloop : genLoop S n g f 0
          (initContext S n.bs n.base.pfx n.base.batch_pfx) ⟨[], [], []⟩ [] with
      | none =>
          rw [hloop] at h
          simp at h
      | some p =>
          obtain ⟨o, sn⟩ := p
          rw [hloop] at h
          dsimp only at h
          cases h
          have hinv := genLoop_routing S n g f 0 _ _ _ _ hloop
            (by exact ⟨fun _ => rfl, fun _ => rfl, fun _ => rfl,
              fun _ _ => rfl⟩)
          rw [hdest, hret] at hinv
          exact ⟨hinv.1, hinv.2.1, hinv.2.2.1, hinv.2.2.2, rfl⟩

/-- Witness for the amended C4: a run with neither destination nor list
mode prints its single text once and returns nothing. -/
theorem generate_output_routing_witness :
    generate stubS 2 2 argsW4 = .ok (some resW4) ∧
    resW4.out.fileWrites = [] ∧
    resW4.out.printed.length = resW4.out.gen_texts.length ∧
    resW4.returned = none :=
  ⟨by rfl,
   (generate_output_routing stubS 2 2 argsW4 resW4 (by rfl)).1 rfl,
   (generate_output_routing stubS 2 2 argsW4 resW4 (by rfl)).2.2.2.1 rfl rfl,
   (generate_output_routing stubS 2 2 argsW4 resW4 (by rfl)).2.2.2.2.trans rfl⟩

/-- C8: a fuelled training-loop run that actually ended (its outcome is
not out-of-fuel) ended in exactly the claimed ways.  Completed: only with
a positive step budget, at counter `counter_base + steps`, with a final
save as the last event.  Interrupted: only because the session op raised
`KeyboardInterrupt`, and a final save is the last event.  Errored: only
because the session op raised a non-interrupt exception, which propagates
with NO save after the failed op (the last event is the op start). -/
theorem trainLoop_exit_modes (oracle : Int → Except PyExc ℚ)
    (steps counter_base save_every sample_every print_every : Int) (A : Nat) :
    ∀ (fuel : Nat) (counter : Int) (avg : ℚ × ℚ) (evs : List TEv)
      (r : TrainRes),
      trainLoop oracle steps counter_base save_every sample_every print_every
          A fuel counter avg evs = r →
      (r.outcome = .completed →
          0 < steps ∧ r.counterFinal = counter_base + steps ∧
          r.events.getLast? = some TEv.save) ∧
      (r.outcome = .interrupted →
          oracle r.counterFinal = .error .keyboardInterrupt ∧
          r.events.getLast? = some TEv.save) ∧
      (∀ e, r.outcome = .errored e →
          (∃ k, e = .other k) ∧ oracle r.counterFinal = .error e ∧
          r.events.getLast? = some (TEv.trainOpStart r.counterFinal)) := by
  intro fuel
  induction fuel with
  | zero =>
      intro counter avg evs r h
      rw [trainLoop] at h
      cases h
      exact ⟨fun hc => (nomatch hc), ⟨fun hc => (nomatch hc),
        fun e hc => nomatch hc⟩⟩
  | succ fuel ih =>
      intro counter avg evs r h
      rw [trainLoop] at h
      by_cases hterm : 0 < steps ∧ counter = counter_base + steps
      · rw [if_pos hterm] at h
        cases h
        refine ⟨fun _ => ⟨hterm.1, hterm.2, ?_⟩, ⟨fun hc => (nomatch hc),
          fun e hc => nomatch hc⟩⟩
        exact List.getLast?_concat _
      · rw [if_neg hterm] at h
        dsimp only at h
        cases horc : oracle counter with
        | error exc =>
            cases exc with
            | keyboardInterrupt =>
                rw [horc] at h
                dsimp only at h
                cases h
                refine ⟨fun hc => (nomatch hc), ⟨fun _ => ⟨horc, ?_⟩,
                  fun e hc => nomatch hc⟩⟩
                exact List.getLast?_concat _
            | other k =>
                rw [horc] at h
                dsimp only at h
                cases h
                refine ⟨fun hc => (nomatch hc), ⟨fun hc => (nomatch hc), ?_⟩⟩
                intro e he
                injection he with he'
                subst he'
                exact ⟨⟨k, rfl⟩, horc, List.getLast?_concat _⟩
        | ok v =>
            rw [horc] at h
            dsimp only at h
            exact ih _ _ _ _ h

/-- Witness for C8: the run `trainRunW` is interrupted at step 2 by the
oracle's `KeyboardInterrupt`, and its final event is the save performed
by the interrupt handler. -/
theorem trainLoop_exit_modes_witness :
    trainLoop oracleW 5 1 100 100 1 3 10 1 (0, 0) [] = trainRunW ∧
    (oracleW trainRunW.counterFinal = .error .keyboardInterrupt ∧
     trainRunW.events.getLast? = some TEv.save) :=
  ⟨rfl, (trainLoop_exit_modes oracleW 5 1 100 100 1 3 10 1 (0, 0) []
      trainRunW rfl).2.1 (by rfl)⟩

theorem firstOccur_nil_of_ne (t : Str) (htt : ¬ t = []) :
    firstOccur t [] = none := by
  unfold firstOccur
  rw [if_neg (by simpa using htt)]

theorem firstOccur_take (t : Str) (htt : ¬ t = []) :
    ∀ (s : Str) (k : Nat), firstOccur t s = some k →
      firstOccur t (s.take k) = none := by
  intro s
  induction s with
  | nil =>
      intro k h
      rw [firstOccur_nil_of_ne t htt] at h
      cases h
  | cons c cs ih =>
      intro k h
      unfold firstOccur at h
      by_cases hp : t.isPrefixOf (c :: cs) = true
      · rw [if_pos hp] at h
        cases h
        rw [List.take_zero]
        exact firstOccur_nil_of_ne t htt
      · rw [if_neg hp] at h
        rcases Option.map_eq_some'.mp h with ⟨k', hk', hkk⟩
        subst hkk
        rw [List.take_succ_cons]
        unfold firstOccur
        have hp2 : ¬ t.isPrefixOf (c :: cs.take k') = true := by
          intro hpre
          apply hp
          rw [ List.isPrefixOf_iff_prefix] at hpre ⊢
          exact hpre.trans (List.cons_prefix_cons.mpr ⟨rfl, List.take_prefix _ _⟩)
        rw [if_neg hp2, ih k' hk']
        rfl

theorem reSearchSimple_free (t s g : Str) (htt : ¬ t = [])
    (h : reSearchSimple t s = some g) : containsSubstrB t g = false := by
  unfold reSearchSimple at h
  rcases Option.map_eq_some'.mp h with ⟨k, hk, rfl⟩
  unfold containsSubstrB
  rw [firstOccur_take t htt s k hk]
  rfl

theorem reSearchSimple_none (t s : Str)
    (h : reSearchSimple t s = none) : containsSubstrB t s = false := by
  unfold reSearchSimple at h
  unfold containsSubstrB
  rw [Option.map_eq_none'.mp h]
  rfl

theorem truncSearch_free (S : Services) (a : GenArgs) (t : Str)
    (ht : a.truncate = some t) (htt : ¬ t = [])
    (hsimple : (pyTruthyStr a.pfx && !a.include_pfx) = false)
    (hrt : ∀ s, S.decode (S.encode s) = s) (text : List Nat) :
    containsSubstrB t (S.decode (truncSearch S a text).2) = false := by
  unfold truncSearch
  rw [ht]
  simp only [hsimple, Bool.false_eq_true, if_false, Option.getD_some]
  cases hres : reSearchSimple t (S.decode text) with
  | some g1 =>
      dsimp only
      rw [hrt]
      exact reSearchSimple_free t _ g1 htt hres
  | none =>
      dsimp only
      exact reSearchSimple_none t _ hres

theorem readCell_subset (store : List (List (List Nat))) (p : Nat) :
    store.getD p [] = [] ∨ store.getD p [] ∈ store := by
  rw [List.getD_eq_getElem?_getD]
  cases hp : store[p]? with
  | none => left; rfl
  | some c =>
      right
      simpa using List.getElem?_mem hp

theorem appendChunk_free (S : Services) (t : Str) (s : BatchState)
    (i : Nat) (text : List Nat) (hs : TruncFreeState S t s)
    (htext : containsSubstrB t (S.decode text) = false) :
    TruncFreeState S t (appendChunk s i text) := by
  intro cell hcell g hg
  unfold appendChunk at hcell
  dsimp only at hcell
  rcases List.mem_or_eq_of_mem_set hcell with hmem | rfl
  · exact hs cell hmem g hg
  · rcases List.mem_append.mp hg with hold | hnew
    · rcases readCell_subset s.genStore (s.genPtr.getD i 0) with hnil | hmem
      · rw [hnil] at hold; cases hold
      · exact hs _ hmem g hold
    · rw [List.mem_singleton.mp hnew]
      exact htext

theorem slotFinish_free (a : GenArgs) (S : Services) (t : Str)
    (s : BatchState) (i : Nat) (text : List Nat) (found : Bool)
    (total : Int) (hs : TruncFreeState S t s)
    (htext : containsSubstrB t (S.decode text) = false) :
    TruncFreeState S t (slotFinish a s i text found total) := by
  have h2 : ∀ s' : BatchState, TruncFreeState S t s' →
      TruncFreeState S t { s' with truncated := s'.truncated.set i true } :=
    fun _ hs' cell hc => hs' cell hc
  unfold slotFinish
  dsimp only
  split_ifs
  all_goals
    first
      | exact h2 _ (appendChunk_free S t s i text hs htext)
      | exact h2 _ hs

theorem pyTruthyStr_some_of_ne (t : Str) (htt : ¬ t = []) :
    pyTruthyStr (some t) = true := by
  cases t with
  | nil => exact absurd rfl htt
  | cons c cs => rfl

theorem slotStep_free (S : Services) (n : NormArgs) (t : Str)
    (ht : n.base.truncate = some t) (htt : ¬ t = [])
    (hsimple : (pyTruthyStr n.base.pfx && !n.base.include_pfx) = false)
    (hrt : ∀ s, S.decode (S.encode s) = s)
    (out : List (List Nat)) (total : Int) (s : BatchState) (i : Nat)
    (hs : TruncFreeState S t s) :
    TruncFreeState S t (slotStep S n out total s i) := by
  have htr : pyTruthyStr n.base.truncate = true := by
    rw [ht]; exact pyTruthyStr_some_of_ne t htt
  have hsnap : ∀ x : BatchState, TruncFreeState S t x →
      TruncFreeState S t (snapState x) := fun _ hx cell hc => hx cell hc
  unfold slotStep
  apply hsnap
  by_cases h1 : s.truncated.getD i false = true
  · rw [if_pos h1]; exact hs
  · rw [if_neg h1]
    simp only [htr, Bool.true_or, if_true]
    apply slotFinish_free
    · exact fun cell hc => hs cell hc
    · exact truncSearch_free S n.base t ht htt hsimple hrt _

theorem slotSteps_free (S : Services) (n : NormArgs) (t : Str)
    (ht : n.base.truncate = some t) (htt : ¬ t = [])
    (hsimple : (pyTruthyStr n.base.pfx && !n.base.include_pfx) = false)
    (hrt : ∀ s, S.decode (S.encode s) = s)
    (out : List (List Nat)) (total : Int) :
    ∀ (l : List Nat) (s : BatchState), TruncFreeState S t s →
      TruncFreeState S t (slotSteps S n out total l s) := by
  intro l
  induction l with
  | nil => intro s hs; exact hs
  | cons i is ih =>
      intro s hs
      rw [slotSteps]
      exact ih _ (slotStep_free S n t ht htt hsimple hrt out total s i hs)

theorem sampleIter_free (S : Services) (n : NormArgs) (t : Str)
    (ht : n.base.truncate = some t) (htt : ¬ t = [])
    (hsimple : (pyTruthyStr n.base.pfx && !n.base.include_pfx) = false)
    (hrt : ∀ s, S.decode (S.encode s) = s)
    (s : BatchState) (total : Int) (hs : TruncFreeState S t s) :
    TruncFreeState S t (sampleIter S n s total).1 := by
  unfold sampleIter
  dsimp only
  exact slotSteps_free S n t ht htt hsimple hrt _ _ _ s hs

theorem innerLoop_free (S : Services) (n : NormArgs) (t : Str)
    (ht : n.base.truncate = some t) (htt : ¬ t = [])
    (hsimple : (pyTruthyStr n.base.pfx && !n.base.include_pfx) = false)
    (hrt : ∀ s, S.decode (S.encode s) = s) :
    ∀ (fuel : Nat) (st res : BatchState × Int),
      innerLoop S n fuel st = some res → TruncFreeState S t st.1 →
      TruncFreeState S t res.1 := by
  intro fuel
  induction fuel with
  | zero =>
      intro st res h hst
      rw [innerLoop] at h
      by_cases hc : st.1.truncated.contains false = true
      · rw [if_pos hc] at h; cases h
      · rw [if_neg hc] at h; cases h; exact hst
  | succ fuel ih =>
      intro st res h hst
      rw [innerLoop] at h
      by_cases hc : st.1.truncated.contains false = true
      · rw [if_pos hc] at h
        exact ih _ _ h (sampleIter_free S n t ht htt hsimple hrt st.1 st.2 hst)
      · rw [if_neg hc] at h; cases h; exact hst

theorem containsSubstrB_cons_false (t : Str) (c : Char) (cs : Str)
    (h : containsSubstrB t (c :: cs) = false) :
    containsSubstrB t cs = false := by
  unfold containsSubstrB at *
  unfold firstOccur at h
  by_cases hp : t.isPrefixOf (c :: cs) = true
  · rw [if_pos hp] at h; cases h
  · rw [if_neg hp] at h
    cases hfo : firstOccur t cs <;> simp_all

theorem containsSubstrB_dropWhile (t : Str) (p : Char → Bool) :
    ∀ s : Str, containsSubstrB t s = false →
      containsSubstrB t (s.dropWhile p) = false := by
  intro s
  induction s with
  | nil => intro h; exact h
  | cons c cs ih =>
      intro h
      rw [List.dropWhile_cons]
      split_ifs
      · exact ih (containsSubstrB_cons_false t c cs h)
      · exact h

theorem decodeSlot_chunkwise (S : Services) (t : Str) (s : BatchState)
    (i : Nat) (hs : TruncFreeState S t s) :
    ChunkwiseTruncFree t (decodeSlot S s i) := by
  refine ⟨(readGen s i).map (fun g => lstripNewline (S.decode g)), rfl, ?_⟩
  intro piece hp
  simp only [List.mem_map] at hp
  obtain ⟨g, hg, rfl⟩ := hp
  have hfree : containsSubstrB t (S.decode g) = false := by
    unfold readGen at hg
    rcases readCell_subset s.genStore (s.genPtr.getD i 0) with hnil | hmem
    · rw [hnil] at hg; cases hg
    · exact hs _ hmem g hg
  exact containsSubstrB_dropWhile t _ (S.decode g) hfree

theorem emitOne_texts_free (a : GenArgs) (delim : Str) (S : Services)
    (s : BatchState) (o : GenOut) (i : Nat) (t : Str)
    (hs : TruncFreeState S t s)
    (ho : ∀ txt ∈ o.gen_texts, ChunkwiseTruncFree t txt) :
    ∀ txt ∈ (emitOne a delim S s o i).gen_texts, ChunkwiseTruncFree t txt := by
  intro txt htxt
  unfold emitOne at htxt
  dsimp only at htxt
  split_ifs at htxt <;>
    (simp only [List.mem_append, List.mem_singleton] at htxt
     rcases htxt with hold | rfl
     · exact ho txt hold
     · exact decodeSlot_chunkwise S t s i hs)

theorem finishSlots_texts_free (a : GenArgs) (delim : Str) (S : Services)
    (s : BatchState) (t : Str) (hs : TruncFreeState S t s) :
    ∀ (l : List Nat) (o : GenOut),
      (∀ txt ∈ o.gen_texts, ChunkwiseTruncFree t txt) →
      ∀ txt ∈ (finishSlots a delim S s l o).gen_texts,
        ChunkwiseTruncFree t txt := by
  intro l
  induction l with
  | nil => intro o ho; exact ho
  | cons i is ih =>
      intro o ho
      rw [finishSlots]
      exact ih _ (emitOne_texts_free a delim S s o i t hs ho)

theorem genLoop_texts_free (S : Services) (n : NormArgs) (innerFuel : Nat)
    (t : Str) (ht : n.base.truncate = some t) (htt : ¬ t = [])
    (hsimple : (pyTruthyStr n.base.pfx && !n.base.include_pfx) = false)
    (hrt : ∀ s, S.decode (S.encode s) = s) :
    ∀ (fuel generated : Nat) (ctx : List (List Nat)) (o : GenOut)
      (sn : List (List Bool × List Nat))
      (res : GenOut × List (List Bool × List Nat)),
      genLoop S n innerFuel fuel generated ctx o sn = some res →
      (∀ txt ∈ o.gen_texts, ChunkwiseTruncFree t txt) →
      ∀ txt ∈ res.1.gen_texts, ChunkwiseTruncFree t txt := by
  intro fuel
  induction fuel with
  | zero =>
      intro generated ctx o sn res h ho
      rw [genLoop] at h
      by_cases hg : generated < n.base.nsamples
      · rw [if_pos hg] at h; cases h
      · rw [if_neg hg] at h; cases h; exact ho
  | succ fuel ih =>
      intro generated ctx o sn res h ho
      rw [genLoop] at h
      by_cases hg : generated < n.base.nsamples
      case neg => rw [if_neg hg] at h; cases h; exact ho
      rw [if_pos hg] at h
      dsimp only at h
      cases hinner : innerLoop S n innerFuel
          (⟨ctx, [[]], List.replicate n.bs 0, List.replicate n.bs false, []⟩, 0) with
      | none => rw [hinner] at h; cases h
      | some s1p =>
          rw [hinner] at h
          have hs0 : TruncFreeState S t
              (⟨ctx, [[]], List.replicate n.bs 0, List.replicate n.bs false,
                []⟩ : BatchState) := by
            intro cell hcm g hg'
            simp only [List.mem_singleton] at hcm
            subst hcm
            cases hg'
          have hs1 := innerLoop_free S n t ht htt hsimple hrt innerFuel _ _
            hinner hs0
          exact ih _ _ _ _ _ h
            (finishSlots_texts_free n.base n.delim S s1p.1 t hs1
              (List.range n.bs) o ho)

/-- Tokenizer round trip for the concrete stub services (token ids are
character codes). -/
theorem stubC3_roundtrip (s : Str) : stubC3.decode (stubC3.encode s) = s := by
  show (s.map Char.toNat).map Char.ofNat = s
  rw [List.map_map]
  have hco : Char.ofNat ∘ Char.toNat = id := funext Char.ofNat_toNat
  rw [hco, List.map_id]

/-- C3 (amended): with a non-empty truncation term `T` and the plain
truncation pattern in force (no truthy single prefix with prefix-exclusion
requested), and a tokenizer whose decode inverts encode, every string a
completed `generate` run returns is a concatenation of per-window pieces
none of which contains `T`: within each individually sampled chunk,
everything from the first occurrence of `T` onward is dropped.  (As the
counterexample shows, `T` can still appear in the returned string spanning
a chunk boundary, which is what refutes the claim as stated.) -/
theorem generate_chunkwise_trunc_free (S : Services) (f g : Nat)
    (a : GenArgs) (r : GenResult) (t : Str) (ht : a.truncate = some t)
    (htt : ¬ t = [])
    (hsimple : pyTruthyStr a.pfx = false ∨ a.include_pfx = true)
    (hrt : ∀ s, S.decode (S.encode s) = s)
    (h : generate S f g a = .ok (some r)) :
    ∀ txt ∈ r.out.gen_texts, ChunkwiseTruncFree t txt := by
  unfold generate at h
  cases hc : generateChecks a with
  | error e => rw [hc] at h; cases h
  | ok n =>
      rw [hc] at h
      dsimp only at h
      obtain ⟨-, -, -, -, htr, hip, hpf⟩ := generateChecks_fields a n hc
      have ht' : n.base.truncate = some t := by rw [htr, ht]
      have hsimple' :
          (pyTruthyStr n.base.pfx && !n.base.include_pfx) = false := by
        rw [hpf, hip]
        rcases hsimple with hp | hp <;> simp [hp]
      cases hloop : genLoop S n g f 0
          (initContext S n.bs n.base.pfx n.base.batch_pfx) ⟨[], [], []⟩ [] with
      | none => rw [hloop] at h; simp at h
      | some p =>
          obtain ⟨o, sn⟩ := p
          rw [hloop] at h
          dsimp only at h
          cases h
          exact genLoop_texts_free S n g t ht' htt hsimple' hrt f 0 _ _ _ _
            hloop (fun txt htxt => nomatch htxt)

/-- Witness for the amended C3: term `"b"` is found inside the single
sampled chunk `"ab"`; the returned text `"a"` is a concatenation of
pieces free of `"b"`. -/
theorem generate_chunkwise_trunc_free_witness :
    argsW3.truncate = some ['b'] ∧
    (pyTruthyStr argsW3.pfx = false ∨ argsW3.include_pfx = true) ∧
    generate stubC3 2 2 argsW3 = .ok (some resW3) ∧
    ChunkwiseTruncFree (['b'] : Str) ['a'] :=
  ⟨rfl, Or.inl rfl, by rfl,
    generate_chunkwise_trunc_free stubC3 2 2 argsW3 resW3 ['b'] rfl
      (by decide) (Or.inl rfl) stubC3_roundtrip (by rfl) ['a'] (by decide)⟩

end GPT2
